import Mathlib

/-!
# Verification of the external-repository reconciliation engine

Shallow embedding of `internal/repos/syncer.go`: the per-repo transactional
apply (`Syncer.sync`), the per-service streaming pass
(`Syncer.SyncExternalService`), the backoff policy (`calcSyncInterval`) and
the lazy single-repo path (`Syncer.SyncRepo` / `Syncer.syncRepo`).

Collaborators that live outside the reconciler (the transactional Store, the
`errcode` classifiers, `types.Repo.Update`, `extsvc.CodeHostOf`) are modelled
from the specification, each marked `Modelled from the spec:` in its doc
comment. Times and durations are integer seconds; the zero `time.Time` is the
integer 0.
-/

namespace Repos

/-- External repository identity (`api.ExternalRepoSpec`): stable ID plus the
kind and instance of the code host. -/
structure ExternalRepoSpec where
  id : String
  serviceType : String
  serviceID : String
deriving DecidableEq, Repr

/-- A repository row (`types.Repo` restricted to the fields the syncer reads
and writes). `svcId` records the owning external service, standing for the
`external_service_repos` association maintained by
`CreateExternalServiceRepo` / `UpdateExternalServiceRepo`. -/
structure Repo where
  id : Nat
  name : String
  externalRepo : ExternalRepoSpec
  priv : Bool
  updatedAt : Int
  svcId : Nat
deriving DecidableEq, Repr

/-- Error classes the syncer distinguishes. `unauthorized`, `forbidden` and
`accountSuspended` correspond to `ErrUnauthorized`, `ErrForbidden` and
`ErrAccountSuspended`; `notFound` to `database.RepoNotFoundErr`; `repoLimit`
to `RepoLimitError`; `other` to any other (transient) error. -/
inductive ErrClass where
  | unauthorized
  | forbidden
  | accountSuspended
  | notFound
  | repoLimit
  | other
deriving DecidableEq, Repr

/-- The `fatal` classifier of `SyncExternalService`:
`errcode.IsUnauthorized(err) || errcode.IsForbidden(err) ||
errcode.IsAccountSuspended(err)`. -/
def fatalErr : ErrClass → Bool
  | .unauthorized => true
  | .forbidden => true
  | .accountSuspended => true
  | _ => false

/-- Modelled from the spec: the aggregate error built by `errors.Append`
(`internal/errcode` and `lib/errors` are not under src/). The empty list is
the nil error; an `errcode` classifier holds on the aggregate iff it holds on
some member. -/
def fatalAgg (errs : List ErrClass) : Bool := errs.any fatalErr

/-- The "not found / unauthorized / forbidden / account suspended" class
tested by `syncRepo`'s deferred cleanup
(`errcode.IsNotFound || errcode.IsUnauthorized || errcode.IsForbidden ||
errcode.IsAccountSuspended`). -/
def staleClass : ErrClass → Bool
  | .notFound => true
  | .unauthorized => true
  | .forbidden => true
  | .accountSuspended => true
  | _ => false

/-- An external service record (`types.ExternalService` restricted to the
fields the syncer reads and writes). -/
structure ExternalService where
  id : Nat
  kind : String
  cloudDefault : Bool
  namespaceUserID : Int
  namespaceOrgID : Int
  lastSyncAt : Int
  nextSyncAt : Int
deriving DecidableEq, Repr

/-- Modelled from the spec: ownership is `site | user:<id> | org:<id>`
(`types.ExternalService.IsSiteOwned` is not under src/); a service is
site-owned when it has neither a user nor an org namespace. -/
def ExternalService.isSiteOwned (svc : ExternalService) : Bool :=
  decide (svc.namespaceUserID = 0 ∧ svc.namespaceOrgID = 0)

/-- The repository table, as the list of its rows. -/
abbrev Store := List Repo

/-- Row deletion by ID (`RepoStore.Delete` / `DeleteExternalServiceRepo`). -/
def removeById (st : Store) (rid : Nat) : Store :=
  st.filter (fun r => decide (r.id ≠ rid))

/-- Row update by ID (the row mutation of `UpdateExternalServiceRepo`). -/
def replaceById (st : Store) (rid : Nat) (r : Repo) : Store :=
  st.map (fun x => if x.id = rid then r else x)

/-- The lookup of `Syncer.sync`: `tx.RepoStore.List` with
`Names = [sourced.Name]`, `ExternalRepos = [sourced.ExternalRepo]`,
`UseOr = true`, including blocked and soft-deleted rows. -/
def matchingRows (st : Store) (sourced : Repo) : List Repo :=
  st.filter (fun r => decide (r.name = sourced.name ∨ r.externalRepo = sourced.externalRepo))

/-- Modelled from the spec: `types.Repo.Update` (not under src/) compares the
stored row with the sourced one field-by-field, copies the newly observed
fields into it, and reports whether anything differed. -/
def Repo.update (stored sourced : Repo) : Bool × Repo :=
  (decide (¬ (stored.name = sourced.name ∧ stored.externalRepo = sourced.externalRepo ∧
      stored.priv = sourced.priv)),
   { stored with name := sourced.name, externalRepo := sourced.externalRepo,
                 priv := sourced.priv })

/-- The difference found by a sync between the store and the sources. -/
structure Diff where
  added : List Repo := []
  deleted : List Repo := []
  modified : List Repo := []
  unmodified : List Repo := []
deriving DecidableEq, Repr

/-- Go `Diff.Repos`: all repos in the Diff, in field order. -/
def Diff.repos (d : Diff) : List Repo :=
  d.added ++ d.deleted ++ d.modified ++ d.unmodified

/-- Go `Diff.Len`. -/
def Diff.len (d : Diff) : Nat :=
  d.deleted.length + d.modified.length + d.added.length + d.unmodified.length

/-- Collaborator inputs of the per-repo apply: the effective repo-count
limits (`s.userReposMaxPerUser()` / `s.userReposMaxPerSite()` after the conf
fallback) and the store's `CountNamespacedRepos` queries, modelled from the
spec as functions of the store (`internal/database` is not under src/).
`countSiteRepos` is `CountNamespacedRepos(0, 0)`; `countNamespaceRepos` is
`CountNamespacedRepos(svc.NamespaceUserID, svc.NamespaceOrgID)`. -/
structure Env where
  userReposMaxPerUser : Nat
  userReposMaxPerSite : Nat
  countSiteRepos : Store → Nat
  countNamespaceRepos : Store → Nat

/-- Observable effects of one per-repo apply, in order: the fate of its
transaction, then any publication on the `Synced` channel. -/
inductive SyncEvent where
  | commitOk
  | commitFailed
  | rollback
  | publish (d : Diff)
deriving DecidableEq, Repr

/-- Result of the body of `Syncer.sync`: a diff, an ordinary error, or a
panic (`panic("unreachable")`, or a nil-pointer dereference in the
naming-conflict branch). -/
inductive ApplyRes where
  | panics
  | err (e : ErrClass)
  | ok (d : Diff)
deriving DecidableEq, Repr

/-- Result of `Syncer.sync` after its deferred block ran: the outcome, the
store as left behind, and the ordered event trace. -/
structure ApplyResult where
  res : ApplyRes
  store : Store
  events : List SyncEvent
deriving DecidableEq, Repr

/-- The body of `Syncer.sync` between `Transact` and the deferred block:
lookup, then the 2 / 1 / 0 / default match arms. Returns the tentative
outcome and the transaction's view of the store. -/
def syncBody (env : Env) (svc : ExternalService) (sourced : Repo) (st : Store) :
    ApplyRes × Store :=
  match matchingRows st sourced with
  | [] =>
    if svc.isSiteOwned then
      (.ok { added := [{ sourced with svcId := svc.id }] },
       st ++ [{ sourced with svcId := svc.id }])
    else if env.userReposMaxPerSite ≤ env.countSiteRepos st ∨
        env.userReposMaxPerUser ≤ env.countNamespaceRepos st then
      (.err .repoLimit, st)
    else
      (.ok { added := [{ sourced with svcId := svc.id }] },
       st ++ [{ sourced with svcId := svc.id }])
  | [r] =>
    if (Repo.update r sourced).1 then
      (.ok { modified := [{ (Repo.update r sourced).2 with svcId := svc.id }] },
       replaceById st r.id { (Repo.update r sourced).2 with svcId := svc.id })
    else
      (.ok { unmodified := [r] }, st)
  | [a, b] =>
    -- the Go loop assigns `existing`/`conflicting` per row and the last
    -- assignment wins; a nil `conflicting` panics before the delete, a nil
    -- `existing` panics after it
    match (if ¬ b.externalRepo = sourced.externalRepo then some b
           else if ¬ a.externalRepo = sourced.externalRepo then some a else none) with
    | none => (.panics, st)
    | some c =>
      match (if b.externalRepo = sourced.externalRepo then some b
             else if a.externalRepo = sourced.externalRepo then some a else none) with
      | none => (.panics, removeById st c.id)
      | some e =>
        if (Repo.update e sourced).1 then
          (.ok { modified := [{ (Repo.update e sourced).2 with svcId := svc.id }] },
           replaceById (removeById st c.id) e.id
             { (Repo.update e sourced).2 with svcId := svc.id })
        else
          (.ok { unmodified := [e] }, removeById st c.id)
  | _ => (.panics, st)

/-- The deferred block of `Syncer.sync`: commit or roll back the transaction
(`commitOk` says whether a commit attempt succeeds), and publish the diff on
the `Synced` channel only after a successful commit of a non-empty diff. A
panic still runs the defer with a nil error, so the transaction commits. -/
def finishTx (orig : Store) (commitOk : Bool) : ApplyRes × Store → ApplyResult
  | (.panics, st) =>
    if commitOk then ⟨.panics, st, [.commitOk]⟩ else ⟨.panics, orig, [.commitFailed]⟩
  | (.err e, _) => ⟨.err e, orig, [.rollback]⟩
  | (.ok d, st) =>
    if commitOk then
      ⟨.ok d, st, if 0 < d.len then [.commitOk, .publish d] else [.commitOk]⟩
    else
      ⟨.err .other, orig, [.commitFailed]⟩

/-- Go `Syncer.sync`: the per-repo transactional apply. -/
def sync (env : Env) (svc : ExternalService) (sourced : Repo) (commitOk : Bool)
    (st : Store) : ApplyResult :=
  finishTx st commitOk (syncBody env svc sourced st)

/-- The diffs sent on the `Synced` channel during a trace. -/
def publishedDiffs (events : List SyncEvent) : List Diff :=
  events.filterMap (fun e => match e with | .publish d => some d | _ => none)

end Repos

namespace Repos

/-- One item received on the `SourceResult` channel: either an error from the
code host or a sourced repo (`commitOk` injects whether that repo's
transaction will commit). -/
inductive SourceItem where
  | srcErr (e : ErrClass)
  | srcRepo (r : Repo) (commitOk : Bool)
deriving DecidableEq, Repr

/-- The mutable state of one `SyncExternalService` pass: the store, the diffs
published so far, the seen set, the aggregated errors and the modified
flag. -/
structure PassState where
  store : Store
  pub : List Diff
  seen : List Nat
  errs : List ErrClass
  modified : Bool
deriving DecidableEq, Repr

/-- Outcome of consuming the stream: either a per-repo apply panicked, or
consumption finished (normally or by an early break) in some state. -/
inductive ConsumeResult where
  | panicked
  | done (st : PassState)
deriving DecidableEq, Repr

/-- The `for res := range results` loop of `SyncExternalService`: record
source errors (clearing the seen set and breaking on a fatal one), skip
disallowed repos, apply each allowed repo, break on `RepoLimitError`, and
accumulate seen IDs and the modified flag. -/
def consume (env : Env) (svc : ExternalService) (allowed : Repo → Bool) :
    List SourceItem → PassState → ConsumeResult
  | [], st => .done st
  | .srcErr e :: rest, st =>
    if fatalErr e then
      .done { st with errs := st.errs ++ [e], seen := [] }
    else
      consume env svc allowed rest { st with errs := st.errs ++ [e] }
  | .srcRepo r cOk :: rest, st =>
    if allowed r then
      let a := sync env svc r cOk st.store
      match a.res with
      | .panics => .panicked
      | .err e =>
        if e = .repoLimit then
          .done { st with errs := st.errs ++ [e] }
        else
          consume env svc allowed rest { st with errs := st.errs ++ [e] }
      | .ok d =>
        consume env svc allowed rest
          { st with store := a.store
                    pub := st.pub ++ publishedDiffs a.events
                    seen := st.seen ++ (Diff.repos d).map (fun x => x.id)
                    modified := st.modified || decide (0 < d.modified.length + d.added.length) }
    else
      consume env svc allowed rest st

/-- Modelled from the spec: `Store.DeleteExternalServiceReposNotIn` (the
Store collaborator is not under src/) removes this service's rows whose ID
was not marked seen and returns the deleted IDs. -/
def deleteNotSeen (svc : ExternalService) (seen : List Nat) (st : Store) :
    List Nat × Store :=
  ((st.filter (fun r => decide (r.svcId = svc.id ∧ r.id ∉ seen))).map (fun r => r.id),
   st.filter (fun r => decide (¬ (r.svcId = svc.id ∧ r.id ∉ seen))))

/-- A repo value carrying only an ID, as built by `notifyDeleted`
(`&types.Repo{ID: id}`). -/
def Repo.justId (rid : Nat) : Repo :=
  { id := rid, name := "", externalRepo := ⟨"", "", ""⟩, priv := false,
    updatedAt := 0, svcId := 0 }

/-- The Deleted-only diff built by `notifyDeleted`. -/
def deletedDiff (ids : List Nat) : Diff :=
  { deleted := ids.map Repo.justId }

/-- Go `const maxSyncInterval = 8 * time.Hour`, in seconds. -/
def maxSyncInterval : Int := 8 * 3600

/-- Go `calcSyncInterval`: next-sync backoff from the outcome of a pass. -/
def calcSyncInterval (now lastSync minSyncInterval : Int) (modified : Bool)
    (errs : List ErrClass) : Int :=
  if errs = [] ∧ (lastSync = 0 ∨ modified = true) then
    minSyncInterval
  else
    let interval := (now - lastSync) * 2
    if interval < minSyncInterval then minSyncInterval
    else if maxSyncInterval < interval then maxSyncInterval
    else interval

/-- Everything a finished `SyncExternalService` pass left behind: the store,
every diff published on `Synced`, the aggregated errors, the final seen set,
the IDs pruned by the post-pass deletion, and the upserted service record. -/
structure PassOutput where
  store : Store
  pub : List Diff
  errs : List ErrClass
  seen : List Nat
  deletedIds : List Nat
  svcSaved : ExternalService
deriving DecidableEq, Repr

/-- Result of `SyncExternalService`: the `ErrCloudDefaultSync` early return,
a propagated panic, or a finished pass. -/
inductive PassResult where
  | cloudDefaultErr (store : Store) (pub : List Diff)
  | panicked
  | finished (out : PassOutput)
deriving DecidableEq, Repr

/-- Go `Syncer.SyncExternalService`: refuse cloud-default services, stream and
apply candidates, prune unseen repos when no error occurred or when a
non-site-owned service hit a fatal error, then compute the backoff and upsert
the service record. `allowed` is the tenant-visibility filter computed from
`UserAllowedExternalServices` (a collaborator). -/
def syncExternalService (env : Env) (svc : ExternalService) (allowed : Repo → Bool)
    (items : List SourceItem) (now minSyncInterval : Int) (st0 : Store) : PassResult :=
  if svc.cloudDefault then
    .cloudDefaultErr st0 []
  else
    match consume env svc allowed items ⟨st0, [], [], [], false⟩ with
    | .panicked => .panicked
    | .done st =>
      let pr := if st.errs = [] ∨ (svc.isSiteOwned = false ∧ fatalAgg st.errs = true) then
          deleteNotSeen svc st.seen st.store
        else
          ([], st.store)
      let pub := st.pub ++ (if pr.1 = [] then [] else [deletedDiff pr.1])
      let modified := st.modified || decide (0 < pr.1.length)
      let interval := calcSyncInterval now svc.lastSyncAt minSyncInterval modified st.errs
      .finished ⟨pr.2, pub, st.errs, st.seen, pr.1,
        { svc with nextSyncAt := now + interval, lastSyncAt := now }⟩

/-- Outcome of the lazy path: a propagated panic, an error, or the freshly
synced repo. -/
inductive LazyRes where
  | panics
  | err (e : ErrClass)
  | ok (r : Repo)
deriving DecidableEq, Repr

/-- Result of `Syncer.syncRepo` / `Syncer.SyncRepo`: the outcome, the store
as left behind, and the diffs published on `Synced`. -/
structure LazyResult where
  res : LazyRes
  store : Store
  pub : List Diff
deriving DecidableEq, Repr

/-- The deferred cleanup of `Syncer.syncRepo`, installed once a stored record
is known to exist: on a stale-class error, delete the stored row
(best-effort) and publish a Deleted-only diff via `notifyDeleted`. A panic
runs the defer with a nil error, so nothing is deleted. -/
def lazyCleanup (stored : Option Repo) (r : LazyResult) : LazyResult :=
  match stored, r.res with
  | some s, .err e =>
    if staleClass e then
      { r with store := removeById r.store s.id, pub := r.pub ++ [deletedDiff [s.id]] }
    else r
  | _, _ => r

/-- Go `Syncer.syncRepo`: resolve the single eligible external service for the
code host (`svcs` is the `ExternalServiceStore.List` result with
`OnlyCloudDefault`/package-host filtering and `Limit: 1`), build its source
(`sourcerOk`), require the `RepoGetter` capability (`isRepoGetter`), then
fetch the single repo live (`fetchRes` is the `GetRepo` outcome, a
collaborator input), refuse private repos, and apply via `sync`. The
stale-error cleanup is only installed after the source is resolved. -/
def syncRepo (env : Env) (svcs : List ExternalService) (sourcerOk isRepoGetter : Bool)
    (stored : Option Repo) (fetchRes : Except ErrClass Repo) (commitOk : Bool)
    (st : Store) : LazyResult :=
  match svcs with
  | [svc] =>
    if sourcerOk then
      if isRepoGetter then
        lazyCleanup stored
          (match fetchRes with
           | .error e => ⟨.err e, st, []⟩
           | .ok repo =>
             if repo.priv then
               ⟨.err .notFound, st, []⟩
             else
               match (sync env svc repo commitOk st).res with
               | .panics => ⟨.panics, (sync env svc repo commitOk st).store,
                   publishedDiffs (sync env svc repo commitOk st).events⟩
               | .err e => ⟨.err e, (sync env svc repo commitOk st).store,
                   publishedDiffs (sync env svc repo commitOk st).events⟩
               | .ok _ => ⟨.ok repo, (sync env svc repo commitOk st).store,
                   publishedDiffs (sync env svc repo commitOk st).events⟩)
      else
        ⟨.err .notFound, st, []⟩
    else
      ⟨.err .other, st, []⟩
  | _ => ⟨.err .notFound, st, []⟩

/-- Go `Syncer.SyncRepo`: look the name up in the store (`GetByName`), require a
recognized public code host (`codehostRecognized` models
`extsvc.CodeHostOf(name, PublicCodeHosts...) != nil`; modelled from the spec,
`internal/extsvc` is not under src/), refuse a private stored record, debounce
records updated within the last minute, then run the deduplicated `syncRepo`
either in the background (returning the stored record immediately; the store
and publications reflect the background run's eventual effects) or in the
foreground. -/
def SyncRepo (env : Env) (name : String) (codehostRecognized background : Bool)
    (now : Int) (svcs : List ExternalService) (sourcerOk isRepoGetter : Bool)
    (fetchRes : Except ErrClass Repo) (commitOk : Bool) (st : Store) : LazyResult :=
  let repo? := st.find? (fun r => decide (r.name = name))
  if codehostRecognized then
    match repo? with
    | some r =>
      if r.priv then
        ⟨.err .notFound, st, []⟩
      else if now - r.updatedAt < 60 then
        ⟨.ok r, st, []⟩
      else if background then
        let l := syncRepo env svcs sourcerOk isRepoGetter (some r) fetchRes commitOk st
        ⟨.ok r, l.store, l.pub⟩
      else
        syncRepo env svcs sourcerOk isRepoGetter (some r) fetchRes commitOk st
    | none =>
      syncRepo env svcs sourcerOk isRepoGetter none fetchRes commitOk st
  else
    match repo? with
    | some r => ⟨.ok r, st, []⟩
    | none => ⟨.err .notFound, st, []⟩

/-! Concrete fixtures used by the witnesses and counterexamples. -/

/-- A concrete environment: limits of 10 repos, empty count queries. -/
def envW : Env := ⟨10, 10, fun _ => 0, fun _ => 0⟩

/-- A concrete environment whose quota counters are already at the limit. -/
def envFull : Env := ⟨10, 10, fun _ => 10, fun _ => 0⟩

def specA : ExternalRepoSpec := ⟨"s1", "github", "https://github.com/"⟩

def specB : ExternalRepoSpec := ⟨"s2", "github", "https://github.com/"⟩

def specC : ExternalRepoSpec := ⟨"s3", "github", "https://github.com/"⟩

def specD : ExternalRepoSpec := ⟨"s4", "github", "https://github.com/"⟩

/-- A site-owned external service. -/
def svcSite : ExternalService := ⟨1, "GITHUB", false, 0, 0, 0, 0⟩

/-- A user-owned external service. -/
def svcUser : ExternalService := ⟨2, "GITHUB", false, 7, 0, 3600, 0⟩

/-- A cloud-default external service. -/
def svcCloud : ExternalService := ⟨3, "GITHUB", true, 0, 0, 0, 0⟩

/-- A store whose three rows all carry the name of `sourcedP`. -/
def storeP : Store :=
  [⟨11, "github.com/o/x", specA, false, 0, 1⟩,
   ⟨12, "github.com/o/x", specB, false, 0, 1⟩,
   ⟨13, "github.com/o/x", specC, false, 0, 1⟩]

def sourcedP : Repo := ⟨0, "github.com/o/x", specD, false, 0, 0⟩

/-- The all-pass tenant-visibility filter. -/
def allowAll : Repo → Bool := fun _ => true

/-- A repo of the user-owned service `svcUser`. -/
def repoU : Repo := ⟨31, "github.com/u/r", specA, false, 0, 2⟩

/-- A private stored repo. -/
def repoPriv : Repo := ⟨41, "github.com/p/p", specA, true, 0, 3⟩

/-- A public stored repo used by the lazy-path scenarios. -/
def repoStale : Repo := ⟨51, "github.com/s/s", specA, false, 0, 3⟩

end Repos

namespace Repos

/-- C2 counterexample: with `modified = true` but a non-nil error, the code
falls through to the backoff branch instead of returning the minimum
interval, refuting "no further condition on whether errors occurred". At
`now = 14400`, `lastSync = 3600`, `minSyncInterval = 60`, the returned
interval is `2 * (14400 - 3600) = 21600`, not `60`. -/
theorem calcSyncInterval_errs_counterexample :
    calcSyncInterval 14400 3600 60 true [ErrClass.other] ≠ 60 := by decide

/-- C2 (amended): `calcSyncInterval` returns the minimum interval when there
was no error and there was no prior sync or the pass modified or deleted
anything; otherwise it returns twice the elapsed time since the last sync,
clamped below to the minimum and above to 8 hours, hence (whenever the
minimum is at most 8 hours) never more than 8 hours. -/
theorem calcSyncInterval_spec (now lastSync minI : Int) (modified : Bool)
    (errs : List ErrClass) :
    (errs = [] ∧ (lastSync = 0 ∨ modified = true) →
      calcSyncInterval now lastSync minI modified errs = minI)
  ∧ (¬ (errs = [] ∧ (lastSync = 0 ∨ modified = true)) →
      calcSyncInterval now lastSync minI modified errs =
        (if (now - lastSync) * 2 < minI then minI
         else if maxSyncInterval < (now - lastSync) * 2 then maxSyncInterval
         else (now - lastSync) * 2))
  ∧ (minI ≤ maxSyncInterval →
      calcSyncInterval now lastSync minI modified errs ≤ maxSyncInterval) := by
  refine ⟨fun h => ?_, fun h => ?_, fun hle => ?_⟩
  · simp only [calcSyncInterval, if_pos h]
  · simp only [calcSyncInterval, if_neg h]
  · simp only [calcSyncInterval]
    split_ifs <;> omega

/-- Witness for `calcSyncInterval_spec` at concrete inputs: a first-ever sync
gets the minimum interval, and an errored pass of an unchanged service backs
off to twice the elapsed time, staying under the ceiling. -/
theorem calcSyncInterval_spec_witness :
    calcSyncInterval 100 0 60 false [] = 60 ∧
    calcSyncInterval 14400 3600 60 true [ErrClass.other] = 21600 ∧
    calcSyncInterval 14400 3600 60 true [ErrClass.other] ≤ maxSyncInterval := by
  refine ⟨(calcSyncInterval_spec 100 0 60 false []).1 ⟨rfl, Or.inl rfl⟩, ?_, ?_⟩
  · rw [(calcSyncInterval_spec 14400 3600 60 true [ErrClass.other]).2.1 (by simp)]
    decide
  · exact (calcSyncInterval_spec 14400 3600 60 true [ErrClass.other]).2.2 (by decide)

/-- C7: syncing a cloud-default external service returns the distinguished
`ErrCloudDefaultSync` before any candidate is consumed: the store is left
exactly as it was and nothing is published on `Synced`. -/
theorem syncExternalService_cloudDefault (env : Env) (svc : ExternalService)
    (allowed : Repo → Bool) (items : List SourceItem) (now minI : Int) (st0 : Store)
    (h : svc.cloudDefault = true) :
    syncExternalService env svc allowed items now minI st0 = .cloudDefaultErr st0 [] := by
  unfold syncExternalService
  rw [h]
  simp

/-- Witness for `syncExternalService_cloudDefault`: a cloud-default service
with a non-empty stream and a non-empty store. -/
theorem syncExternalService_cloudDefault_witness :
    syncExternalService envW svcCloud (fun _ => true) [SourceItem.srcRepo sourcedP true]
        7200 60 storeP = .cloudDefaultErr storeP [] :=
  syncExternalService_cloudDefault envW svcCloud (fun _ => true)
    [SourceItem.srcRepo sourcedP true] 7200 60 storeP rfl

/-- C9: when the Name-or-ExternalRepoSpec lookup returns more than two rows,
the per-repo apply panics rather than selecting a row or returning an
ordinary error. -/
theorem sync_panics_on_many_matches (env : Env) (svc : ExternalService) (sourced : Repo)
    (cOk : Bool) (st : Store) (h : 2 < (matchingRows st sourced).length) :
    (sync env svc sourced cOk st).res = .panics := by
  unfold sync syncBody
  rcases hrows : matchingRows st sourced with _ | ⟨a, _ | ⟨b, _ | ⟨c, t⟩⟩⟩
  · rw [hrows] at h
    simp at h
  · rw [hrows] at h
    simp at h
  · rw [hrows] at h
    simp at h
  · cases cOk <;> rfl

/-- Witness for `sync_panics_on_many_matches`: three stored rows share the
candidate's name. -/
theorem sync_panics_on_many_matches_witness :
    2 < (matchingRows storeP sourcedP).length ∧
    (sync envW svcSite sourcedP true storeP).res = .panics :=
  ⟨by decide, sync_panics_on_many_matches envW svcSite sourcedP true storeP (by decide)⟩

/-- Helper: a successful body of the per-repo apply builds a diff holding
exactly one repo, in exactly one of Added, Modified or Unmodified. -/
theorem syncBody_ok_shape (env : Env) (svc : ExternalService) (sourced : Repo) (st : Store)
    (d : Diff) (st' : Store) (h : syncBody env svc sourced st = (.ok d, st')) :
    ∃ r, d = { added := [r] } ∨ d = { modified := [r] } ∨ d = { unmodified := [r] } := by
  unfold syncBody at h
  split at h
  · split_ifs at h
    · injection h with h1 h2
      injection h1 with h1
      exact ⟨_, Or.inl h1.symm⟩
    · injection h with h1 h2
      injection h1
    · injection h with h1 h2
      injection h1 with h1
      exact ⟨_, Or.inl h1.symm⟩
  · split_ifs at h
    · injection h with h1 h2
      injection h1 with h1
      exact ⟨_, Or.inr (Or.inl h1.symm)⟩
    · injection h with h1 h2
      injection h1 with h1
      exact ⟨_, Or.inr (Or.inr h1.symm)⟩
  · split at h
    · injection h with h1 h2
      injection h1
    · split at h
      · injection h with h1 h2
        injection h1
      · split_ifs at h
        · injection h with h1 h2
          injection h1 with h1
          exact ⟨_, Or.inr (Or.inl h1.symm)⟩
        · injection h with h1 h2
          injection h1 with h1
          exact ⟨_, Or.inr (Or.inr h1.symm)⟩
  · injection h with h1 h2
    injection h1

/-- C5: a successful per-repo apply returns a Diff containing exactly one
repo, placed in exactly one of Added, Modified or Unmodified, with Deleted
empty; consequently the four sets are pairwise disjoint and `Repos()` has no
duplicates. -/
theorem sync_ok_diff_partition (env : Env) (svc : ExternalService) (sourced : Repo)
    (cOk : Bool) (st : Store) (d : Diff)
    (h : (sync env svc sourced cOk st).res = .ok d) :
    d.deleted = [] ∧
    d.added.length + d.modified.length + d.unmodified.length = 1 ∧
    (Diff.repos d).length = 1 ∧ (Diff.repos d).Nodup := by
  have hb : ∃ s, syncBody env svc sourced st = (.ok d, s) := by
    unfold sync at h
    rcases hbody : syncBody env svc sourced st with ⟨r, s⟩
    rw [hbody] at h
    cases r with
    | panics => cases cOk <;> simp [finishTx] at h
    | err e => simp [finishTx] at h
    | ok d0 =>
      cases cOk with
      | true =>
        simp [finishTx, apply_ite] at h
        exact ⟨s, by rw [h]⟩
      | false => simp [finishTx] at h
  obtain ⟨s, hb⟩ := hb
  obtain ⟨r, hr⟩ := syncBody_ok_shape env svc sourced st d s hb
  rcases hr with rfl | rfl | rfl <;> simp [Diff.repos]

/-- Witness for `sync_ok_diff_partition`: applying a sourced repo against an
empty store adds it. -/
theorem sync_ok_diff_partition_witness :
    ∃ d, (sync envW svcSite sourcedP true []).res = .ok d ∧ d.deleted = [] ∧
      d.added.length + d.modified.length + d.unmodified.length = 1 ∧
      (Diff.repos d).length = 1 ∧ (Diff.repos d).Nodup :=
  ⟨{ added := [{ sourcedP with svcId := svcSite.id }] }, by decide,
   sync_ok_diff_partition envW svcSite sourcedP true []
     { added := [{ sourcedP with svcId := svcSite.id }] } (by decide)⟩

/-- C3: on a two-row naming conflict (`r1` matches the candidate by
ExternalRepoSpec, `r2` only by Name), the per-repo apply deletes `r2`,
updates `r1` with the newly observed fields including the new Name, and
returns a Diff classifying only the updated `r1` as Modified — the deleted
`r2` appears nowhere in the Diff. -/
theorem sync_naming_conflict (env : Env) (svc : ExternalService)
    (sourced r1 r2 r1' : Repo) (st : Store)
    (hrows : matchingRows st sourced = [r1, r2] ∨ matchingRows st sourced = [r2, r1])
    (h1 : r1.externalRepo = sourced.externalRepo)
    (h2 : ¬ r2.externalRepo = sourced.externalRepo)
    (hn : ¬ r1.name = sourced.name)
    (hr1' : r1' = { r1 with name := sourced.name, externalRepo := sourced.externalRepo,
                            priv := sourced.priv, svcId := svc.id }) :
    sync env svc sourced true st =
      ⟨.ok { modified := [r1'] },
       replaceById (removeById st r2.id) r1.id r1',
       [.commitOk, .publish { modified := [r1'] }]⟩ := by
  subst hr1'
  unfold sync syncBody
  rcases hrows with hrows | hrows <;> rw [hrows] <;>
    simp [h1, h2, Repo.update, hn, finishTx, Diff.len]

/-- Store rows for the rename scenario: `rowC` is matched by
ExternalRepoSpec, `rowD` only by Name. -/
def rowC : Repo := ⟨21, "github.com/o/c", specA, false, 0, 1⟩

def rowD : Repo := ⟨22, "github.com/o/d", specB, false, 0, 1⟩

/-- The candidate reporting a rename: `rowC`'s spec under `rowD`'s name. -/
def sourcedCD : Repo := ⟨0, "github.com/o/d", specA, false, 0, 0⟩

/-- Row `rowC` after the rename is applied. -/
def rowCD : Repo := ⟨21, "github.com/o/d", specA, false, 0, 1⟩

/-- Witness for `sync_naming_conflict`: the rename scenario of the spec. -/
theorem sync_naming_conflict_witness :
    sync envW svcSite sourcedCD true [rowC, rowD] =
      ⟨.ok { modified := [rowCD] },
       replaceById (removeById [rowC, rowD] rowD.id) rowC.id rowCD,
       [.commitOk, .publish { modified := [rowCD] }]⟩ :=
  sync_naming_conflict envW svcSite sourcedCD rowC rowD rowCD [rowC, rowD]
    (Or.inl (by decide)) (by decide) (by decide) (by decide) (by decide)

/-- Helper: a trace with no publication vacuously satisfies the
publish-after-commit ordering. -/
theorem no_publish_get (es : List SyncEvent)
    (hno : ∀ d, SyncEvent.publish d ∉ es) :
    ∀ n d, es.get? n = some (.publish d) →
      ∃ m, m < n ∧ es.get? m = some .commitOk := by
  intro n d hn
  exact absurd (List.get?_mem hn) (hno d)

/-- C4: in the per-repo apply, any publication on the `Synced` channel is
strictly preceded in the event trace by a successful transaction commit; if
the apply errored or the commit failed, nothing is published. -/
theorem sync_publish_after_commit (env : Env) (svc : ExternalService) (sourced : Repo)
    (cOk : Bool) (st : Store) :
    (∀ n d, ((sync env svc sourced cOk st).events).get? n = some (.publish d) →
      ∃ m, m < n ∧ ((sync env svc sourced cOk st).events).get? m = some .commitOk)
  ∧ (∀ e, (sync env svc sourced cOk st).res = .err e →
      ∀ d, SyncEvent.publish d ∉ (sync env svc sourced cOk st).events)
  ∧ (cOk = false → ∀ d, SyncEvent.publish d ∉ (sync env svc sourced cOk st).events) := by
  unfold sync
  rcases hbody : syncBody env svc sourced st with ⟨r, s⟩
  cases r with
  | panics =>
    cases cOk with
    | false =>
      exact ⟨no_publish_get _ (by simp [finishTx]), by simp [finishTx], by simp [finishTx]⟩
    | true =>
      exact ⟨no_publish_get _ (by simp [finishTx]), by simp [finishTx], by simp [finishTx]⟩
  | err e =>
    exact ⟨no_publish_get _ (by simp [finishTx]), by simp [finishTx], by simp [finishTx]⟩
  | ok d0 =>
    cases cOk with
    | false =>
      exact ⟨no_publish_get _ (by simp [finishTx]), by simp [finishTx], by simp [finishTx]⟩
    | true =>
      by_cases hl : 0 < d0.len
      · refine ⟨?_, by simp [finishTx, hl], by simp⟩
        simp only [finishTx, if_pos hl, if_pos rfl]
        intro n d hn
        match n with
        | 0 => simp [List.get?] at hn
        | 1 => exact ⟨0, by omega, rfl⟩
        | Nat.succ (Nat.succ k) => simp [List.get?] at hn
      · exact ⟨no_publish_get _ (by simp [finishTx, hl]), by simp [finishTx, hl],
          by simp⟩

/-- Witness for `sync_publish_after_commit`: nothing is published when the
commit fails. -/
theorem sync_publish_after_commit_witness :
    SyncEvent.publish { added := [] } ∉ (sync envW svcSite sourcedP false []).events :=
  (sync_publish_after_commit envW svcSite sourcedP false []).2.2 rfl { added := [] }

/-- C6: a `RepoLimitError` from a per-repo apply stops consumption of the
remaining candidates immediately (the pass state is unchanged apart from the
recorded error), while the completion logic still runs: the finished pass
always carries a service record with `LastSyncAt = now` and
`NextSyncAt = now + calcSyncInterval ...`; and a new repo of a non-site-owned
service whose site-wide or namespace count has reached its limit fails with
`RepoLimitError` and is not inserted. -/
theorem repoLimit_halts_pass (env : Env) (svc : ExternalService) (allowed : Repo → Bool) :
    (∀ r cOk rest st, allowed r = true →
      (sync env svc r cOk st.store).res = .err .repoLimit →
      consume env svc allowed (.srcRepo r cOk :: rest) st =
        .done { st with errs := st.errs ++ [.repoLimit] })
  ∧ (∀ items now minI st0 out, svc.cloudDefault = false →
      syncExternalService env svc allowed items now minI st0 = .finished out →
      out.svcSaved.lastSyncAt = now ∧
      ∃ m e, out.svcSaved.nextSyncAt = now + calcSyncInterval now svc.lastSyncAt minI m e)
  ∧ (∀ sourced cOk st, svc.isSiteOwned = false →
      matchingRows st sourced = [] →
      (env.userReposMaxPerSite ≤ env.countSiteRepos st ∨
       env.userReposMaxPerUser ≤ env.countNamespaceRepos st) →
      sync env svc sourced cOk st = ⟨.err .repoLimit, st, [.rollback]⟩) := by
  refine ⟨?_, ?_, ?_⟩
  · intro r cOk rest st hA hE
    simp [consume, hA, hE]
  · intro items now minI st0 out hcd hfin
    unfold syncExternalService at hfin
    rw [hcd] at hfin
    simp only [Bool.false_eq_true, if_false] at hfin
    rcases hc : consume env svc allowed items ⟨st0, [], [], [], false⟩ with _ | st
    · rw [hc] at hfin
      cases hfin
    · rw [hc] at hfin
      have h := PassResult.finished.inj hfin
      exact ⟨by rw [← h], _, _, by rw [← h]⟩
  · intro sourced cOk st hsite hm hq
    unfold sync syncBody
    rw [hm]
    simp [hsite, if_pos hq, finishTx]

/-- Witness for `repoLimit_halts_pass`: with quota counters at the limit,
the second candidate is never consumed and the apply leaves the store
unchanged. -/
theorem repoLimit_halts_pass_witness :
    consume envFull svcUser allowAll
        [SourceItem.srcRepo sourcedP true, SourceItem.srcRepo rowC true]
        ⟨[], [], [], [], false⟩ =
      .done ⟨[], [], [], [ErrClass.repoLimit], false⟩ ∧
    sync envFull svcUser sourcedP true [] = ⟨.err .repoLimit, [], [.rollback]⟩ := by
  refine ⟨?_, ?_⟩
  · exact (repoLimit_halts_pass envFull svcUser allowAll).1 sourcedP true
      [SourceItem.srcRepo rowC true] ⟨[], [], [], [], false⟩ rfl (by decide)
  · exact (repoLimit_halts_pass envFull svcUser allowAll).2.2 sourcedP true [] (by decide)
      (by decide) (by decide)

/-- C1: after the stream is consumed, the post-pass pruning of unseen repos
runs iff no error was recorded or the service is not site-owned and a fatal
error was recorded; a site-owned service with any errors prunes nothing; a
non-site-owned service whose seen set was cleared by a fatal error keeps no
repo of that service; and a fatal source error records the error, clears the
seen set and aborts consumption immediately. -/
theorem syncExternalService_prune_gate (env : Env) (svc : ExternalService)
    (allowed : Repo → Bool) (items : List SourceItem) (now minI : Int) (st0 : Store)
    (st : PassState)
    (hcd : svc.cloudDefault = false)
    (hc : consume env svc allowed items ⟨st0, [], [], [], false⟩ = .done st) :
    ∃ out, syncExternalService env svc allowed items now minI st0 = .finished out ∧
      ((st.errs = [] ∨ (svc.isSiteOwned = false ∧ fatalAgg st.errs = true)) →
        out.deletedIds = (deleteNotSeen svc st.seen st.store).1 ∧
        out.store = (deleteNotSeen svc st.seen st.store).2) ∧
      (¬ (st.errs = [] ∨ (svc.isSiteOwned = false ∧ fatalAgg st.errs = true)) →
        out.deletedIds = [] ∧ out.store = st.store) ∧
      (svc.isSiteOwned = true → st.errs ≠ [] →
        out.deletedIds = [] ∧ out.store = st.store) ∧
      (svc.isSiteOwned = false → fatalAgg st.errs = true → st.seen = [] →
        ∀ r ∈ out.store, r.svcId ≠ svc.id) ∧
      (∀ e rest st1, fatalErr e = true →
        consume env svc allowed (.srcErr e :: rest) st1 =
          .done { st1 with errs := st1.errs ++ [e], seen := [] }) := by
  unfold syncExternalService
  rw [hcd]
  simp only [Bool.false_eq_true, if_false]
  rw [hc]
  refine ⟨_, rfl, ?_, ?_, ?_, ?_, ?_⟩
  · intro hg
    constructor <;> simp only [if_pos hg]
  · intro hg
    constructor <;> simp only [if_neg hg]
  · intro hsite herrs
    have hg : ¬ (st.errs = [] ∨ (svc.isSiteOwned = false ∧ fatalAgg st.errs = true)) := by
      rintro (h | ⟨h, _⟩)
      · exact herrs h
      · rw [hsite] at h
        cases h
    constructor <;> simp only [if_neg hg]
  · intro hsite hfat hseen r hr
    have hg : st.errs = [] ∨ (svc.isSiteOwned = false ∧ fatalAgg st.errs = true) :=
      Or.inr ⟨hsite, hfat⟩
    rw [if_pos hg, hseen] at hr
    simp only [deleteNotSeen, List.mem_filter, decide_eq_true_eq] at hr
    intro hid
    exact hr.2 ⟨hid, by simp⟩
  · intro e rest st1 hf
    simp [consume, hf]

/-- Witness for `syncExternalService_prune_gate`: a user-owned service whose
stream reports only an unauthorized error has its single stored repo
pruned. -/
theorem syncExternalService_prune_gate_witness :
    ∃ out, syncExternalService envW svcUser allowAll
        [SourceItem.srcErr ErrClass.unauthorized] 7200 60 [repoU] = .finished out ∧
      out.deletedIds = [31] ∧ out.store = [] := by
  obtain ⟨out, hfin, hA, hrest⟩ :=
    syncExternalService_prune_gate envW svcUser allowAll
      [SourceItem.srcErr ErrClass.unauthorized] 7200 60 [repoU]
      ⟨[repoU], [], [], [ErrClass.unauthorized], false⟩ rfl (by decide)
  obtain ⟨h1, h2⟩ := hA (by decide)
  refine ⟨out, hfin, ?_, ?_⟩
  · rw [h1]
    decide
  · rw [h2]
    decide

/-- C10: when the name belongs to a recognized public code host and the
stored record is Private, `SyncRepo` returns a repo-not-found error with the
store unchanged; the result does not depend on the service list, the source,
or the fetch outcome, so the Source is never contacted. -/
theorem SyncRepo_private_stored (env : Env) (name : String) (background : Bool)
    (now : Int) (svcs : List ExternalService) (sourcerOk isRepoGetter : Bool)
    (fetchRes : Except ErrClass Repo) (commitOk : Bool) (st : Store) (r : Repo)
    (hfind : st.find? (fun x => decide (x.name = name)) = some r)
    (hpriv : r.priv = true) :
    SyncRepo env name true background now svcs sourcerOk isRepoGetter fetchRes commitOk st =
      ⟨.err .notFound, st, []⟩ := by
  unfold SyncRepo
  rw [hfind]
  simp [hpriv]

/-- Witness for `SyncRepo_private_stored`: a private stored record short
circuits the lazy sync even though the fetch input would report an
unrelated error. -/
theorem SyncRepo_private_stored_witness :
    SyncRepo envW "github.com/p/p" true false 7200 [] true true
        (Except.error ErrClass.other) true [repoPriv] =
      ⟨.err .notFound, [repoPriv], []⟩ :=
  SyncRepo_private_stored envW "github.com/p/p" false 7200 [] true true
    (Except.error ErrClass.other) true [repoPriv] repoPriv (by decide) rfl

/-- C8 counterexample: with a stored record present but no eligible external
service resolvable (`svcs = []`), `syncRepo` ends with a not-found-class
error, yet the stored record is not deleted and nothing is published — the
claim's "whenever the operation ends with an error in that class" does not
hold for errors raised before the deferred cleanup is installed. -/
theorem syncRepo_stale_counterexample :
    (syncRepo envW [] true true (some repoStale) (.ok repoStale) true [repoStale]).res =
      .err .notFound ∧
    staleClass .notFound = true ∧
    (syncRepo envW [] true true (some repoStale) (.ok repoStale) true [repoStale]).store =
      [repoStale] ∧
    (syncRepo envW [] true true (some repoStale) (.ok repoStale) true [repoStale]).pub =
      [] := by
  decide

/-- Helper: an erroring per-repo apply leaves the store untouched and
publishes nothing. -/
theorem sync_err_no_change (env : Env) (svc : ExternalService) (sourced : Repo)
    (cOk : Bool) (st : Store) (e : ErrClass)
    (h : (sync env svc sourced cOk st).res = .err e) :
    (sync env svc sourced cOk st).store = st ∧
    publishedDiffs (sync env svc sourced cOk st).events = [] := by
  unfold sync at h ⊢
  rcases hbody : syncBody env svc sourced st with ⟨r, s⟩
  rw [hbody] at h
  cases r <;> cases cOk <;> simp [finishTx, publishedDiffs, apply_ite] at h ⊢

/-- C8 (amended): in the lazy path, once the single eligible external
service and its repo-getting source are resolved, a live repo marked Private
makes the operation fail with a repo-not-found error; and whenever a stored
record exists and the operation then ends with a stale-class error (from the
live fetch onwards), the stored record is deleted and a Deleted-only Diff is
published on `Synced`. -/
theorem syncRepo_stale_cleanup (env : Env) (svc : ExternalService) (stored : Option Repo)
    (fetchRes : Except ErrClass Repo) (cOk : Bool) (st : Store) :
    (∀ rep, fetchRes = .ok rep → rep.priv = true →
      (syncRepo env [svc] true true stored fetchRes cOk st).res = .err .notFound)
  ∧ (∀ s e, stored = some s →
      (syncRepo env [svc] true true stored fetchRes cOk st).res = .err e →
      staleClass e = true →
      (syncRepo env [svc] true true stored fetchRes cOk st).store = removeById st s.id ∧
      (syncRepo env [svc] true true stored fetchRes cOk st).pub = [deletedDiff [s.id]]) := by
  constructor
  · intro rep hfr hp
    subst hfr
    unfold syncRepo
    cases stored with
    | none => simp [lazyCleanup, hp]
    | some s => simp [lazyCleanup, hp, staleClass]
  · intro s e hs hres hsc
    subst hs
    unfold syncRepo at hres ⊢
    cases fetchRes with
    | error e0 =>
      by_cases h0 : staleClass e0 = true
      · have he : e0 = e := by
          simp [lazyCleanup, h0] at hres
          exact hres
        subst he
        constructor <;> simp [lazyCleanup, h0]
      · have he : e0 = e := by
          simp [lazyCleanup, h0] at hres
          exact hres
        subst he
        exact absurd hsc h0
    | ok rep =>
      by_cases hp : rep.priv = true
      · have he : ErrClass.notFound = e := by
          simp [lazyCleanup, hp, staleClass] at hres
          exact hres
        subst he
        constructor <;> simp [lazyCleanup, hp, staleClass]
      · rcases ha : (sync env svc rep cOk st).res with _ | e1 | d
        · simp [lazyCleanup, hp, ha] at hres
        · have hnc := sync_err_no_change env svc rep cOk st e1 ha
          by_cases h1 : staleClass e1 = true
          · have he : e1 = e := by
              simp [lazyCleanup, hp, ha, h1] at hres
              exact hres
            subst he
            constructor <;> simp [lazyCleanup, hp, ha, h1, hnc.1, hnc.2]
          · have he : e1 = e := by
              simp [lazyCleanup, hp, ha, h1] at hres
              exact hres
            subst he
            exact absurd hsc h1
        · simp [lazyCleanup, hp, ha] at hres

/-- Witness for `syncRepo_stale_cleanup`: an unauthorized live fetch deletes
the stored record and publishes a Deleted-only diff. -/
theorem syncRepo_stale_cleanup_witness :
    (syncRepo envW [svcCloud] true true (some repoStale)
        (Except.error ErrClass.unauthorized) true [repoStale]).store =
      removeById [repoStale] repoStale.id ∧
    (syncRepo envW [svcCloud] true true (some repoStale)
        (Except.error ErrClass.unauthorized) true [repoStale]).pub =
      [deletedDiff [repoStale.id]] :=
  (syncRepo_stale_cleanup envW svcCloud (some repoStale)
      (Except.error ErrClass.unauthorized) true [repoStale]).2 repoStale
    ErrClass.unauthorized rfl (by decide) rfl

end Repos
